import Mathlib

/-!
Verification of the flipper-rf-lab analysis core against its specification.

The C sources are shallowly embedded: machine integers are modelled as `ℤ`
(with explicit two's-complement wrapping where the C type can overflow) or as
`ℕ` for unsigned counters and bytes.  C's truncating division on signed
operands is `Int.tdiv`, the arithmetic right shift is `Int.fdiv` by a power of
two, and the usual-arithmetic-conversion of a signed operand to `unsigned`
is taken `% 2^32`.
-/

/-- Two's-complement wrap of an integer to the signed 32-bit range,
modelling a C cast to (or overflow of) `int32_t`. -/
def wrap32 (x : ℤ) : ℤ := (x + 2147483648) % 4294967296 - 2147483648

/-- Two's-complement wrap to the signed 16-bit range (`int16_t`). -/
def wrap16 (x : ℤ) : ℤ := (x + 32768) % 65536 - 32768

/-- Conversion of a (possibly negative) integer to `uint32_t`. -/
def toU32 (x : ℤ) : ℤ := x % 4294967296

/-- Conversion to `uint16_t`. -/
def toU16 (x : ℤ) : ℤ := x % 65536

/-- Conversion to `uint8_t`. -/
def toU8 (x : ℤ) : ℤ := x % 256

/-! ## Fixed-point library (src/core/math/fixed_point.c, unnamed/part_003)

`fixed_t` is `int32_t` holding a Q15.16 value; `fixed_dbl_t` is `int64_t`.
Intermediate 64-bit products cannot overflow, so they are plain `ℤ`; every
cast back to `fixed_t` wraps. -/

def FIXED_SCALE : ℤ := 65536

def FIXED_ONE : ℤ := 65536

def FIXED_TWO : ℤ := 131072

def FIXED_MAX : ℤ := 2147483647

def FIXED_MIN : ℤ := -2147483648

/-- C `fixed_abs`: `(x < 0) ? -x : x` on `int32_t` (negation may wrap). -/
def fixed_abs (x : ℤ) : ℤ := if x < 0 then wrap32 (-x) else x

/-- C `fixed_mul`: 64-bit product, "round to nearest" adjustment of ±½ULP,
arithmetic right shift by 16, cast back to `fixed_t`. -/
def fixed_mul (a b : ℤ) : ℤ :=
  let temp := a * b
  let temp2 := if 0 ≤ temp then temp + 32768 else temp - 32768
  wrap32 (Int.fdiv temp2 65536)

/-- C `fixed_div`: division by zero saturates with the numerator's sign;
otherwise the numerator is widened, shifted left 16, a ±`b >> 1` rounding
term is applied, and C truncating division by `b` is performed. -/
def fixed_div (a b : ℤ) : ℤ :=
  if b = 0 then (if 0 ≤ a then FIXED_MAX else FIXED_MIN)
  else
    let temp := a * 65536
    let temp2 := if 0 ≤ temp then temp + Int.fdiv b 2 else temp - Int.fdiv b 2
    wrap32 (Int.tdiv temp2 b)

/-- Body of the Newton-Raphson loop in `fixed_sqrt` (8 iterations; on
convergence `|new_guess - guess| < 16` the loop breaks returning the old
guess). -/
def fixed_sqrt_loop (x : ℤ) : ℕ → ℤ → ℤ
  | 0, guess => guess
  | n + 1, guess =>
    let d := fixed_div x guess
    let new_guess := Int.fdiv (wrap32 (guess + d)) 2
    if fixed_abs (wrap32 (new_guess - guess)) < 16 then guess
    else fixed_sqrt_loop x n new_guess

/-- C `fixed_sqrt`: non-positive input returns 0; otherwise Newton-Raphson from
the initial guess `x >> 1` (replaced by `FIXED_ONE` when that is 0). -/
def fixed_sqrt (x : ℤ) : ℤ :=
  if x ≤ 0 then 0
  else
    let g0 := Int.fdiv x 2
    fixed_sqrt_loop x 8 (if g0 = 0 then FIXED_ONE else g0)

/-- Range reduction loop of `fixed_log`: halve until `y < FIXED_TWO`,
counting the halvings.  The C `while` loop terminates in at most 31 steps for
an `int32_t`; fuel 32 covers it. -/
def fixed_log_reduce : ℕ → ℤ → ℤ × ℤ
  | 0, y => (y, 0)
  | fuel + 1, y =>
    if 131072 ≤ y then
      let p := fixed_log_reduce fuel (Int.fdiv y 2)
      (p.1, p.2 + 1)
    else (y, 0)

/-- C `fixed_log`: non-positive input returns `FIXED_MIN`; otherwise range
reduction to `[1, 2)` and the linear approximation
`log2(y) ≈ (y - 1) * 0.94`, recombined with `ln 2`.  The constants are
`FLOAT_TO_FIXED(0.94f) = 61603` and `FLOAT_TO_FIXED(0.693147f) = 45426`. -/
def fixed_log (x : ℤ) : ℤ :=
  if x ≤ 0 then FIXED_MIN
  else
    let p := fixed_log_reduce 32 x
    let frac_part := fixed_mul (p.1 - FIXED_ONE) 61603
    let log2_result := p.2 * 65536 + frac_part
    fixed_mul log2_result 45426

/-! ## CRC-16-CCITT and the RF fingerprint record
(src/analysis/fingerprinting.c, unnamed/part_002, unnamed/part_006)

`RFFingerprint_t` is `{u32 drift_mean; u32 drift_variance; u16 rise_time_avg;
u16 fall_time_avg; u8 clock_stability_ppm; u8 rssi_signature[16];
u16 unique_hash}`.  With natural alignment the struct occupies 32 bytes with
one padding byte at offset 29 and the hash at offset 30;
`fingerprinting_calculate_hash` runs the CRC over the first
`sizeof(RFFingerprint_t) - 2 = 30` bytes, i.e. every field except the hash
(plus the zero padding byte).  The byte image is little-endian. -/

/-- One shift step of the CRC-16-CCITT loop (`uint16_t` arithmetic,
polynomial 0x1021). -/
def crc16_shift (c : ℕ) : ℕ :=
  if c &&& 32768 ≠ 0 then ((c * 2) ^^^ 4129) % 65536 else (c * 2) % 65536

/-- Eight CRC shift rounds (the inner `for(j)` loop). -/
def crc16_rounds : ℕ → ℕ → ℕ
  | 0, c => c
  | n + 1, c => crc16_rounds n (crc16_shift c)

/-- Per-byte CRC update: `crc ^= data[i] << 8` then eight shift rounds. -/
def crc16_update (c b : ℕ) : ℕ := crc16_rounds 8 ((c ^^^ b * 256) % 65536)

/-- Little-endian image of a `uint32_t`. -/
def le32 (x : ℕ) : List ℕ := [x % 256, x / 256 % 256, x / 65536 % 256, x / 16777216 % 256]

/-- Little-endian image of a `uint16_t`. -/
def le16 (x : ℕ) : List ℕ := [x % 256, x / 256 % 256]

/-- The `RFFingerprint_t` record.  Fields hold the unsigned machine values. -/
structure RFFingerprint where
  drift_mean : ℕ
  drift_variance : ℕ
  rise_time_avg : ℕ
  fall_time_avg : ℕ
  clock_stability_ppm : ℕ
  rssi_signature : List ℕ
  unique_hash : ℕ
deriving DecidableEq

/-- The 30-byte prefix of the in-memory image of an `RFFingerprint_t` that
`fingerprinting_calculate_hash` reads: all fields in declaration order,
little-endian, followed by the zero padding byte at offset 29; the
`unique_hash` field (offsets 30-31) is excluded. -/
def fingerprint_image (fp : RFFingerprint) : List ℕ :=
  le32 fp.drift_mean ++ le32 fp.drift_variance ++
    le16 fp.rise_time_avg ++ le16 fp.fall_time_avg ++
    [fp.clock_stability_ppm % 256] ++ (fp.rssi_signature.map (· % 256)) ++ [0]

/-- C `fingerprinting_calculate_hash`: CRC-16-CCITT, initial value 0xFFFF,
over the record bytes excluding the `unique_hash` field. -/
def fingerprinting_calculate_hash (fp : RFFingerprint) : ℕ :=
  (fingerprint_image fp).foldl crc16_update 65535

/-- All-zero fingerprint record (the state after `memset(..., 0, ...)`). -/
def zeroFingerprint : RFFingerprint :=
  { drift_mean := 0, drift_variance := 0, rise_time_avg := 0,
    fall_time_avg := 0, clock_stability_ppm := 0,
    rssi_signature := List.replicate 16 0, unique_hash := 0 }

/-! ## Fingerprinting capture engine (src/analysis/fingerprinting.c) -/

/-- C `FingerprintState_t`. -/
inductive FingerprintState where
  | idle | sampling | analyzing | matching | learning
deriving DecidableEq

/-- C `FingerprintCaptureState_t`, with the counter fields represented by list
lengths (`interval_count`, `symbol_count`, `rssi_sample_count`). -/
structure FingerprintCaptureState where
  inter_frame_intervals : List ℕ
  last_frame_timestamp : ℕ
  rssi_samples : List ℕ
  symbol_timings : List ℕ
  rssi_envelope : List ℕ
  current_fingerprint : RFFingerprint
  state : FingerprintState
  frames_captured : ℕ
deriving DecidableEq

def FINGERPRINT_SAMPLE_COUNT : ℕ := 1000

def MAX_SLOPE_SAMPLES : ℕ := 256

/-- Capture state after `fingerprinting_start_capture` (memset to zero, then
`state = FINGERPRINT_STATE_SAMPLING`). -/
def startedCaptureState : FingerprintCaptureState :=
  { inter_frame_intervals := [], last_frame_timestamp := 0,
    rssi_samples := [], symbol_timings := [],
    rssi_envelope := List.replicate 16 0,
    current_fingerprint := zeroFingerprint,
    state := FingerprintState.sampling, frames_captured := 0 }

/-- C `StatisticalSummary_t`. -/
structure StatisticalSummary where
  mean : ℕ
  variance : ℕ
  std_dev : ℕ
  min : ℕ
  max : ℕ
  median : ℕ
deriving DecidableEq

/-- The 16-iteration bitwise integer square root used by
`fingerprinting_calc_statistics` (arguments: fuel, radicand, partial root,
probe bit). -/
def isqrt32_loop : ℕ → ℕ → ℕ → ℕ → ℕ
  | 0, _, r, _ => r
  | n + 1, v, r, a =>
    let t := r ||| a
    if t * t ≤ v then isqrt32_loop n v t (a / 2) else isqrt32_loop n v r (a / 2)

def isqrt32 (v : ℕ) : ℕ := isqrt32_loop 16 v 0 32768

/-- C `fingerprinting_calc_statistics` over `uint32_t` samples: exact 64-bit
sum, truncating mean, variance as the 64-bit sum of squared deviations (mod
2^64, matching `uint64_t`) divided by the count and cast to `uint32_t`,
bitwise square root for the standard deviation; the median is "simplified"
to the mean. -/
def fingerprinting_calc_statistics (data : List ℕ) : StatisticalSummary :=
  match data with
  | [] => { mean := 0, variance := 0, std_dev := 0, min := 0, max := 0, median := 0 }
  | d0 :: _ =>
    let count := data.length
    let sum := data.foldl (· + ·) 0
    let mn := data.foldl Nat.min d0
    let mx := data.foldl Nat.max d0
    let mean := sum / count % 4294967296
    let vsum := (data.foldl (fun s d => s + ((d : ℤ) - mean).natAbs ^ 2) 0) % 18446744073709551616
    let variance := vsum / count % 4294967296
    { mean := mean, variance := variance, std_dev := isqrt32 variance,
      min := mn, max := mx, median := mean }

/-- C `fingerprinting_analyze_timing_drift`: requires at least 10 intervals,
then writes batch statistics of the inter-frame intervals into the working
fingerprint. -/
def fingerprinting_analyze_timing_drift (s : FingerprintCaptureState) : RFFingerprint :=
  if s.inter_frame_intervals.length < 10 then s.current_fingerprint
  else
    let st := fingerprinting_calc_statistics s.inter_frame_intervals
    { s.current_fingerprint with drift_mean := st.mean, drift_variance := st.variance }

/-- C `fingerprinting_analyze_rise_fall_slopes` applied to a fingerprint:
mean positive and mean negative first differences of the RSSI sample ring
(each average only written when at least one such difference exists). -/
def fingerprinting_analyze_rise_fall_slopes (s : FingerprintCaptureState)
    (fp : RFFingerprint) : RFFingerprint :=
  if s.rssi_samples.length < 10 then fp
  else
    let diffs := (s.rssi_samples.zip s.rssi_samples.tail).map
      (fun p => (p.2 : ℤ) - (p.1 : ℤ))
    let rises := diffs.filter (0 < ·)
    let falls := diffs.filter (· < 0)
    let total_rise := (rises.map Int.natAbs).foldl (· + ·) 0
    let total_fall := (falls.map Int.natAbs).foldl (· + ·) 0
    let fp1 := if rises.length ≠ 0 then
        { fp with rise_time_avg := total_rise / rises.length % 65536 } else fp
    if falls.length ≠ 0 then
      { fp1 with fall_time_avg := total_fall / falls.length % 65536 } else fp1

/-- C `fingerprinting_analyze_clock_stability` applied to a fingerprint:
`ppm = std_dev * 1000000 / mean` over the symbol timings (the product wraps
as `uint32_t`), clamped to 255. -/
def fingerprinting_analyze_clock_stability (s : FingerprintCaptureState)
    (fp : RFFingerprint) : RFFingerprint :=
  if s.symbol_timings.length < 10 then fp
  else
    let st := fingerprinting_calc_statistics s.symbol_timings
    if 0 < st.mean then
      let ppm := st.std_dev * 1000000 % 4294967296 / st.mean
      { fp with clock_stability_ppm := Nat.min ppm 255 }
    else fp

/-- C `fingerprinting_analyze_rssi_envelope` applied to a fingerprint: copies
the 16-entry envelope ring into the signature. -/
def fingerprinting_analyze_rssi_envelope (s : FingerprintCaptureState)
    (fp : RFFingerprint) : RFFingerprint :=
  { fp with rssi_signature := s.rssi_envelope }

/-- The four analyses of `fingerprinting_generate_fingerprint` (lines
196-199), all mutating `capture_state.current_fingerprint`. -/
def fingerprinting_run_analyses (s : FingerprintCaptureState) : RFFingerprint :=
  fingerprinting_analyze_rssi_envelope s
    (fingerprinting_analyze_clock_stability s
      (fingerprinting_analyze_rise_fall_slopes s
        (fingerprinting_analyze_timing_drift s)))

/-- C `fingerprinting_generate_fingerprint(fingerprint)` with an output record
distinct from `capture_state.current_fingerprint` (the function's contract:
the output is a caller-owned buffer).  After the analyses, line 202 computes
the CRC over the *output* buffer's current bytes and stores it there, and
line 205 then copies `capture_state.current_fingerprint` over the whole
output, hash field included.  Returns (new capture state, output record). -/
def fingerprinting_generate_fingerprint (s : FingerprintCaptureState)
    (outPrev : RFFingerprint) : FingerprintCaptureState × RFFingerprint :=
  let cur := fingerprinting_run_analyses s
  let out1 := { outPrev with unique_hash := fingerprinting_calculate_hash outPrev }
  let out2 := cur
  let _ := out1
  ({ s with current_fingerprint := cur, state := FingerprintState.matching }, out2)

/-- The aliased call `fingerprinting_generate_fingerprint(&capture_state.
current_fingerprint)` made by `fingerprinting_process_frame`: here line 202
hashes the freshly analyzed record itself and the `memcpy` is a self-copy. -/
def fingerprinting_generate_fingerprint_aliased
    (s : FingerprintCaptureState) : FingerprintCaptureState :=
  let cur := fingerprinting_run_analyses s
  let cur2 := { cur with unique_hash := fingerprinting_calculate_hash cur }
  { s with current_fingerprint := cur2, state := FingerprintState.matching }

/-- The relevant slice of `Frame_t` (unnamed/part_002). -/
structure Frame where
  data : List ℕ
  length : ℕ
  timestamp_us : ℕ
  rssi_dbm : ℕ
  duration_us : ℕ
deriving DecidableEq

/-- A frame admitted by the ingest interface (§6: `len ∈ [0, 64]`). -/
def frame_admitted (f : Frame) : Prop := f.length ≤ 64 ∧ f.data.length = f.length

/-- C `fingerprinting_process_frame`.  Returns `none` when the symbol-timing
update divides `duration_us` by a zero `frame->length` (undefined behaviour
in the C source); otherwise the updated capture state. -/
def fingerprinting_process_frame (s : FingerprintCaptureState) (f : Frame) :
    Option FingerprintCaptureState :=
  if s.state ≠ FingerprintState.sampling then some s
  else
    let s1 := if 0 < s.last_frame_timestamp then
        (if s.inter_frame_intervals.length < FINGERPRINT_SAMPLE_COUNT then
          { s with inter_frame_intervals := s.inter_frame_intervals ++
              [(f.timestamp_us + 4294967296 - s.last_frame_timestamp) % 4294967296] }
        else s)
      else s
    let s2 := { s1 with last_frame_timestamp := f.timestamp_us }
    if s2.symbol_timings.length < FINGERPRINT_SAMPLE_COUNT then
      if f.length = 0 then none
      else
        let s3 := { s2 with symbol_timings := s2.symbol_timings ++ [f.duration_us / f.length] }
        let idx := s3.frames_captured % 16
        let s4 := { s3 with rssi_envelope := s3.rssi_envelope.set idx ((f.rssi_dbm + 128) % 256) }
        let s5 := { s4 with frames_captured := s4.frames_captured + 1 }
        if FINGERPRINT_SAMPLE_COUNT ≤ s5.frames_captured then
          some (fingerprinting_generate_fingerprint_aliased
            { s5 with state := FingerprintState.analyzing })
        else some s5
    else
      let idx := s2.frames_captured % 16
      let s4 := { s2 with rssi_envelope := s2.rssi_envelope.set idx ((f.rssi_dbm + 128) % 256) }
      let s5 := { s4 with frames_captured := s4.frames_captured + 1 }
      if FINGERPRINT_SAMPLE_COUNT ≤ s5.frames_captured then
        some (fingerprinting_generate_fingerprint_aliased
          { s5 with state := FingerprintState.analyzing })
      else some s5

/-! ## Compression codec (src/storage/compression.c)

Byte streams are `List ℕ` with entries below 256.  `delta_encode` keeps the
previous input byte in an `int16_t` and emits one byte for a delta in
`[-128, 127]` — including -128, whose byte image 0x80 collides with the
escape code — and otherwise the escape 0x80 followed by the big-endian
`int16_t` delta.  The output is bounded by
`COMPRESSION_MAX_BLOCK_SIZE = 1024`. -/

def COMPRESSION_MAX_BLOCK_SIZE : ℕ := 1024

/-- Sign extension of a byte (`(int8_t)byte` in the decoder). -/
def i8_of_byte (b : ℕ) : ℤ := if b < 128 then (b : ℤ) else (b : ℤ) - 256

/-- Byte image of a signed value (`(uint8_t)(x & 0xFF)`). -/
def byte_of_int (x : ℤ) : ℕ := (x % 256).toNat

/-- Main loop of `delta_encode` (argument order: previous byte as `int16_t`,
remaining input, bytes already emitted). -/
def delta_encode_loop : ℤ → List ℕ → ℕ → List ℕ
  | _, [], _ => []
  | last, b :: rest, out_pos =>
    if out_pos < COMPRESSION_MAX_BLOCK_SIZE then
      let delta := (b : ℤ) - last
      if -128 ≤ delta ∧ delta ≤ 127 then
        byte_of_int delta :: delta_encode_loop (b : ℤ) rest (out_pos + 1)
      else
        128 :: byte_of_int (Int.fdiv delta 256) :: byte_of_int delta ::
          delta_encode_loop (b : ℤ) rest (out_pos + 3)
    else []

/-- C `delta_encode`: first byte verbatim, then per-byte deltas. -/
def delta_encode (input : List ℕ) : List ℕ :=
  match input with
  | [] => []
  | b0 :: rest => b0 % 256 :: delta_encode_loop (b0 % 256 : ℕ) rest 1

/-- Main loop of `delta_decode`: a 0x80 byte followed by at least two more
bytes is an escape carrying a big-endian `int16_t` delta; any other byte
(and a trailing 0x80) is a sign-extended small delta.  The accumulator
`last` is an `int16_t`. -/
def delta_decode_loop : ℤ → List ℕ → List ℕ
  | _, [] => []
  | last, 128 :: hi :: lo :: rest =>
    let delta := wrap16 ((hi % 256) * 256 + lo % 256)
    let last2 := wrap16 (last + delta)
    byte_of_int last2 :: delta_decode_loop last2 rest
  | last, b :: rest =>
    let delta := i8_of_byte (b % 256)
    let last2 := wrap16 (last + delta)
    byte_of_int last2 :: delta_decode_loop last2 rest

/-- C `delta_decode`: first byte verbatim (also seeding `last`), then the
delta stream. -/
def delta_decode (input : List ℕ) : List ℕ :=
  match input with
  | [] => []
  | b0 :: rest => b0 % 256 :: delta_decode_loop (b0 % 256 : ℕ) rest

/-! ## Threat model (unnamed/part_005, unnamed/part_007)

`threat_model_calculate_vulnerability_score` reads the analysis context's
entropy (`float entropy_per_byte`), static-bit percentage (`uint8_t
static_ratio`), and three boolean detections.  The float-derived entropy
contribution `(uint16_t)((4.0f - entropy_per_byte) * 75)` is abstracted as an
unconstrained natural-number parameter together with the `entropy < 4.0f`
flag, so the theorems below hold for every possible float outcome.  Score
arithmetic is `uint16_t` (each `+=` wraps mod 65536). -/

inductive RiskLevel where
  | low | medium | high | critical
deriving DecidableEq

def VULN_SCORE_CRITICAL : ℕ := 900

def VULN_SCORE_HIGH : ℕ := 700

def VULN_SCORE_MEDIUM : ℕ := 400

def VULN_SCORE_LOW : ℕ := 200

/-- The analysis-context fields read by the scoring functions.
`entropy_points` stands for `(uint16_t)((4.0f - entropy_per_byte) * 75)`;
`entropy_low` for `entropy_per_byte < 4.0f`; `static_pct` for the
context's `static_ratio` byte. -/
structure ThreatScoreInputs where
  entropy_low : Bool
  entropy_points : ℕ
  static_pct : ℕ
  crc_validated : Bool
  rolling_code_detected : Bool
  exact_replay_detected : Bool

/-- The unclamped additive score of
`threat_model_calculate_vulnerability_score` (entropy, static, no-CRC,
no-rolling-code and replay contributions, each `+=` on `uint16_t`). -/
def threat_model_score_sum (c : ThreatScoreInputs) : ℕ :=
  let s0 := if c.entropy_low then c.entropy_points % 65536 else 0
  let s1 := (s0 + c.static_pct % 256 * 250 / 100) % 65536
  let s2 := if ¬c.crc_validated then (s1 + 200) % 65536 else s1
  let s3 := if ¬c.rolling_code_detected then (s2 + 150) % 65536 else s2
  if c.exact_replay_detected then (s3 + 100) % 65536 else s3

/-- C `threat_model_calculate_vulnerability_score`: the additive score,
clamped to 1000 on return. -/
def threat_model_calculate_vulnerability_score (c : ThreatScoreInputs) : ℕ :=
  if 1000 < threat_model_score_sum c then 1000 else threat_model_score_sum c

/-- C `threat_model_calculate_risk_level`: recomputes the score and maps it
through the band thresholds (both `< VULN_SCORE_LOW` and the final fallback
return `RISK_LOW`). -/
def threat_model_calculate_risk_level (c : ThreatScoreInputs) : RiskLevel :=
  let score := threat_model_calculate_vulnerability_score c
  if VULN_SCORE_CRITICAL ≤ score then RiskLevel.critical
  else if VULN_SCORE_HIGH ≤ score then RiskLevel.high
  else if VULN_SCORE_MEDIUM ≤ score then RiskLevel.medium
  else if VULN_SCORE_LOW ≤ score then RiskLevel.low
  else RiskLevel.low

/-- The `level` / `vulnerability_score` pair of a `ThreatAssessment_t`. -/
structure ThreatAssessment where
  level : RiskLevel
  vulnerability_score : ℕ
deriving DecidableEq

/-- The assessment written by `threat_model_assess_vulnerabilities` (both
fields come from the same deterministic functions of the context). -/
def threat_model_assessment (c : ThreatScoreInputs) : ThreatAssessment :=
  { level := threat_model_calculate_risk_level c,
    vulnerability_score := threat_model_calculate_vulnerability_score c }

/-- C `threat_model_quick_assess` risk classification for a single frame,
parameterised by the float comparisons `entropy < 2.0f`, the all-same-byte
detection, and `entropy < 4.0f`. -/
def threat_model_quick_assess (entropy_lt2 all_same entropy_lt4 : Bool) :
    ThreatAssessment :=
  if entropy_lt2 || all_same then { level := RiskLevel.high, vulnerability_score := 700 }
  else if entropy_lt4 then { level := RiskLevel.medium, vulnerability_score := 400 }
  else { level := RiskLevel.low, vulnerability_score := 200 }

/-! ## Protocol inference engine (src/analysis/protocol_infer.c)

`protocol_infer_analyze` runs only when at least 10 pulses *or* at least 2
frames have been accumulated.  Modulation classification reads the pulse
array together with `infer_state.cluster_count`, the number of mark-histogram
peaks found by `protocol_infer_cluster_pulses` earlier in the pipeline; it is
passed here as a parameter. -/

/-- The `Pulse_t` fields read by the classifier. -/
structure Pulse where
  width_us : ℕ
  level : ℕ
  timestamp_us : ℕ
deriving DecidableEq

/-- C `ModulationType_t`. -/
inductive ModulationType where
  | unknown | ook | ask | fsk | gfsk | msk | psk
deriving DecidableEq

/-- Gate at the top of `protocol_infer_analyze`: insufficient data aborts
the pipeline. -/
def protocol_infer_analyze_runs (pulse_count frame_count : ℕ) : Prop :=
  ¬(pulse_count < 10 ∧ frame_count < 2)

instance (pc fc : ℕ) : Decidable (protocol_infer_analyze_runs pc fc) := by
  unfold protocol_infer_analyze_runs; infer_instance

/-- C `protocol_infer_detect_modulation_type`: fewer than 10 pulses returns
`MOD_UNKNOWN`; more than a third of pulses longer than 1000 µs returns
`MOD_OOK`; at least two detected pulse clusters returns `MOD_FSK`; otherwise
`MOD_ASK`. -/
def protocol_infer_detect_modulation_type (pulses : List Pulse)
    (cluster_count : ℕ) : ModulationType :=
  if pulses.length < 10 then ModulationType.unknown
  else
    let zero_count := (pulses.filter (fun p => 1000 < p.width_us)).length
    if pulses.length / 3 < zero_count then ModulationType.ook
    else if 2 ≤ cluster_count then ModulationType.fsk
    else ModulationType.ask

/-! ## Welford accumulator (src/core/math/statistics.c)

`WelfordState_t` holds a `uint32_t n` and `fixed_t` fields.  The update
`state->mean += delta / state->n` divides an `int32_t` by a `uint32_t`:
C's usual arithmetic conversions convert the signed delta to `uint32_t`
first, so any sample below the running mean is divided as a huge unsigned
number. -/

structure WelfordState where
  n : ℕ
  mean : ℤ
  m2 : ℤ
  min_val : ℤ
  max_val : ℤ
  variance : ℤ
  std_dev : ℤ
deriving DecidableEq

/-- C `welford_init`: zeroed state with `min = FIXED_MAX`, `max = FIXED_MIN`. -/
def welford_init : WelfordState :=
  { n := 0, mean := 0, m2 := 0, min_val := FIXED_MAX, max_val := FIXED_MIN,
    variance := 0, std_dev := 0 }

/-- C `welford_add_sample`.  `delta / n` is the unsigned division described
above; the quotient is added back into the signed `mean` (wrapping), and
`m2` accumulates `fixed_mul(delta, delta2)`. -/
def welford_add_sample (s : WelfordState) (x : ℤ) : WelfordState :=
  let n' := (s.n + 1) % 4294967296
  let mn := if x < s.min_val then x else s.min_val
  let mx := if s.max_val < x then x else s.max_val
  let delta := wrap32 (x - s.mean)
  let q := toU32 delta / (n' : ℤ)
  let mean' := wrap32 (s.mean + q)
  let delta2 := wrap32 (x - mean')
  { n := n', mean := mean', m2 := wrap32 (s.m2 + fixed_mul delta delta2),
    min_val := mn, max_val := mx, variance := s.variance, std_dev := s.std_dev }

/-- C `welford_get_variance`: 0 for fewer than two samples, otherwise
`m2 / (n - 1)` — again an `int32_t` by `uint32_t` division performed
unsigned. -/
def welford_get_variance (s : WelfordState) : ℤ :=
  if s.n < 2 then 0 else wrap32 (toU32 s.m2 / ((s.n : ℤ) - 1))

/-! ## Histogram (src/core/math/statistics.c)

`Histogram_t` has `uint16_t bins[256]`, a `uint16_t num_bins`, `fixed_t`
range fields, a `uint32_t total_samples` and the peak tracking fields.  The
bins array is modelled as a function `ℕ → ℕ` whose updates wrap mod 2^16.
`histogram_init` divides by the clamped bin count, so a zero bin count is
undefined behaviour (`none`). -/

def HISTOGRAM_MAX_BINS : ℕ := 256

structure Histogram where
  bins : ℕ → ℕ
  num_bins : ℕ
  min_val : ℤ
  max_val : ℤ
  bin_width : ℤ
  total_samples : ℕ
  peak_bin : ℕ
  peak_count : ℕ

/-- The clamp `(num_bins < HISTOGRAM_MAX_BINS) ? num_bins :
HISTOGRAM_MAX_BINS` in `histogram_init`. -/
def histogram_clamped_bins (num_bins : ℕ) : ℕ :=
  if num_bins < HISTOGRAM_MAX_BINS then num_bins else HISTOGRAM_MAX_BINS

/-- C `histogram_init`: `bin_width = (max - min) / num_bins` (replaced by
`FIXED_ONE` when zero); a zero bin count divides by zero. -/
def histogram_init (num_bins : ℕ) (mn mx : ℤ) : Option Histogram :=
  if histogram_clamped_bins num_bins = 0 then none
  else
    let bw := Int.tdiv (wrap32 (mx - mn)) (histogram_clamped_bins num_bins)
    some { bins := fun _ => 0, num_bins := histogram_clamped_bins num_bins,
           min_val := mn, max_val := mx,
           bin_width := if bw = 0 then FIXED_ONE else bw,
           total_samples := 0, peak_bin := 0, peak_count := 0 }

/-- Bin selection in `histogram_add`: `(value - min) / bin_width` cast to
`uint16_t`, clamped to `num_bins - 1`. -/
def histogram_bin_index (h : Histogram) (v : ℤ) : ℕ :=
  let bin0 := ((Int.tdiv (wrap32 (v - h.min_val)) h.bin_width) % 65536).toNat
  if h.num_bins ≤ bin0 then h.num_bins - 1 else bin0

/-- C `histogram_add`: out-of-range values are rejected; otherwise the bin and
the total are incremented and the peak is updated when the new bin count
exceeds it. -/
def histogram_add (h : Histogram) (v : ℤ) : Histogram :=
  if v < h.min_val ∨ h.max_val < v then h
  else
    let bin := histogram_bin_index h v
    let c' := (h.bins bin + 1) % 65536
    let h' := { h with bins := Function.update h.bins bin c',
                       total_samples := (h.total_samples + 1) % 4294967296 }
    if h'.peak_count < c' then { h' with peak_count := c', peak_bin := bin } else h'

/-- C `histogram_normalize`: each bin below `num_bins` is rescaled to
`bins[i] * FIXED_SCALE / total_samples` — the `int` product wraps, the
division is unsigned, and the store back into `uint16_t` truncates.  The
`peak_count` and `total_samples` fields are left unchanged. -/
def histogram_normalize (h : Histogram) : Histogram :=
  if h.total_samples = 0 then h
  else
    { h with bins := fun j =>
        if j < h.num_bins then
          ((toU32 (wrap32 ((h.bins j : ℤ) * 65536)) / (h.total_samples : ℤ)).toNat) % 65536
        else h.bins j }

/-- The histogram invariant stated by the spec, plus the structural bounds
that make it inductive. -/
def histogram_wf (h : Histogram) : Prop :=
  1 ≤ h.num_bins ∧ h.num_bins ≤ 256 ∧ h.peak_bin < h.num_bins ∧
    h.bins h.peak_bin = h.peak_count ∧
    (∀ j < h.num_bins, h.bins j ≤ h.peak_count) ∧
    (∑ j in Finset.range h.num_bins, h.bins j) = h.total_samples

/-! ## Clustering engine (src/analysis/clustering.c)

`DataPoint_t` carries Q15.16 coordinates and the assigned cluster id; a
`Dataset_t` is the list of its first `count` points.  `KMeansResult_t`
holds `KMEANS_MAX_K = 5` centroids (entries beyond `k` stay at their
memset-zero value), iteration and convergence bookkeeping.  The centroid
array is modelled as a function `ℕ → Centroid`. -/

def KMEANS_MAX_K : ℕ := 5

def KMEANS_MAX_ITERATIONS : ℕ := 100

structure DataPoint where
  x : ℤ
  y : ℤ
  cluster_id : ℕ
deriving DecidableEq

structure Centroid where
  x : ℤ
  y : ℤ
  point_count : ℕ
  inertia : ℤ
deriving DecidableEq

structure KMeansResult where
  centroids : ℕ → Centroid
  k : ℕ
  iterations : ℕ
  converged : Bool
  total_inertia : ℤ
  silhouette_score : ℤ

def zeroCentroid : Centroid := { x := 0, y := 0, point_count := 0, inertia := 0 }

/-- C `clustering_distance_euclidean`: `sqrt(dx² + dy²)` in Q15.16 (the
differences and the sum of products are `fixed_t` and wrap). -/
def clustering_distance_euclidean (a b : DataPoint) : ℤ :=
  let dx := wrap32 (a.x - b.x)
  let dy := wrap32 (a.y - b.y)
  fixed_sqrt (wrap32 (fixed_mul dx dx + fixed_mul dy dy))

/-- One step of the nearest-centroid scan in
`clustering_kmeans_assign_points`: strict improvement, so ties keep the
lower cluster id. -/
def kmeans_best_step (cents : ℕ → Centroid) (p : DataPoint) (acc : ℕ × ℤ)
    (j : ℕ) : ℕ × ℤ :=
  let dist := clustering_distance_euclidean p
    { x := (cents j).x, y := (cents j).y, cluster_id := 0 }
  if dist < acc.2 then (j, dist) else acc

/-- The nearest-centroid scan: `best_cluster = 0`, `min_distance =
FIXED_MAX`, then the loop over `j < k`. -/
def kmeans_best_cluster (cents : ℕ → Centroid) (k : ℕ) (p : DataPoint) :
    ℕ × ℤ :=
  (List.range k).foldl (kmeans_best_step cents p) (0, FIXED_MAX)

/-- C `clustering_kmeans_assign_points`, denotationally: every point's
`cluster_id` becomes its nearest centroid, and for each cluster `j < k` the
per-pass accumulators are the `uint16_t` count of its points and the
wrapping sum of `fixed_mul(min_distance, min_distance)` over them (in list
order), exactly what the single C loop accumulates; centroid entries beyond
`k` are untouched. -/
def clustering_kmeans_assign_points (r : KMeansResult) (pts : List DataPoint) :
    KMeansResult × List DataPoint :=
  let assigned := pts.map (fun p =>
    { p with cluster_id := (kmeans_best_cluster r.centroids r.k p).1 })
  let cents := fun j =>
    if j < r.k then
      { r.centroids j with
        point_count := (assigned.filter (fun p => p.cluster_id == j)).length % 65536,
        inertia := pts.foldl (fun s p =>
          let bd := kmeans_best_cluster r.centroids r.k p
          if bd.1 = j then wrap32 (s + fixed_mul bd.2 bd.2) else s) 0 }
    else r.centroids j
  ({ r with centroids := cents }, assigned)

/-- The `uint16_t` per-cluster counter of `clustering_kmeans_update_centroids`. -/
def kmeans_cluster_count (pts : List DataPoint) (j : ℕ) : ℕ :=
  (pts.filter (fun p => p.cluster_id == j)).length % 65536

/-- The wrapping `fixed_t` coordinate sums of
`clustering_kmeans_update_centroids` (accumulated in list order). -/
def kmeans_cluster_sum_x (pts : List DataPoint) (j : ℕ) : ℤ :=
  pts.foldl (fun s p => if p.cluster_id = j then wrap32 (s + p.x) else s) 0

def kmeans_cluster_sum_y (pts : List DataPoint) (j : ℕ) : ℤ :=
  pts.foldl (fun s p => if p.cluster_id = j then wrap32 (s + p.y) else s) 0

/-- C `clustering_kmeans_update_centroids`: each non-empty cluster's centroid
becomes the truncating division of its coordinate sums by its count; empty
clusters keep their previous centroid. -/
def clustering_kmeans_update_centroids (r : KMeansResult)
    (pts : List DataPoint) : KMeansResult :=
  { r with centroids := fun j =>
      if j < r.k ∧ 0 < kmeans_cluster_count pts j then
        { r.centroids j with
          x := Int.tdiv (kmeans_cluster_sum_x pts j) (kmeans_cluster_count pts j),
          y := Int.tdiv (kmeans_cluster_sum_y pts j) (kmeans_cluster_count pts j) }
      else r.centroids j }

/-- C `clustering_kmeans_check_convergence`: wrapping Manhattan movement of
the centroids below `FIXED_ONE / 200 = 327`. -/
def clustering_kmeans_check_convergence (prev cur : KMeansResult) : Bool :=
  let tm := (List.range cur.k).foldl (fun s j =>
    let dx := wrap32 ((cur.centroids j).x - (prev.centroids j).x)
    let dy := wrap32 ((cur.centroids j).y - (prev.centroids j).y)
    wrap32 (s + wrap32 (fixed_abs dx + fixed_abs dy))) 0
  decide (tm < 327)

/-- The iteration loop of `clustering_kmeans_iterative` (fuel =
`KMEANS_MAX_ITERATIONS`): save the previous result, assign, update, count
the iteration, and stop with `converged = true` when the centroids moved
less than the threshold. -/
def kmeans_loop : ℕ → KMeansResult → List DataPoint → ℕ →
    KMeansResult × List DataPoint
  | 0, r, pts, _ => (r, pts)
  | fuel + 1, r, pts, iter =>
    let prev := r
    let ap := clustering_kmeans_assign_points r pts
    let r2 := clustering_kmeans_update_centroids ap.1 ap.2
    let r3 := { r2 with iterations := iter + 1 }
    if clustering_kmeans_check_convergence prev r3 then
      ({ r3 with converged := true }, ap.2)
    else kmeans_loop fuel r3 ap.2 (iter + 1)

/-- C `clustering_kmeans_iterative`: run the loop, then total the per-cluster
inertias (wrapping `fixed_t` additions). -/
def clustering_kmeans_iterative (r : KMeansResult) (pts : List DataPoint) :
    KMeansResult × List DataPoint :=
  let res := kmeans_loop KMEANS_MAX_ITERATIONS r pts 0
  ({ res.1 with total_inertia := ((List.range res.1.k).foldl
      (fun s j => wrap32 (s + (res.1.centroids j).inertia)) 0) }, res.2)

/-- C `clustering_silhouette_score`: mean of `(b - a) / max(a, b)` over all
points; `a` is the mean distance to same-cluster peers (peers selected by
index, counts are `uint16_t`), `b` the smallest mean distance to another
cluster.  Returns 0 for fewer than 2 clusters or points. -/
def clustering_silhouette_score (pts : List DataPoint) (r : KMeansResult) : ℤ :=
  if r.k < 2 ∨ pts.length < 2 then 0
  else
    let total := pts.enum.foldl (fun tot ip =>
      let p := ip.2
      let own := p.cluster_id
      let apair := pts.enum.foldl (fun (acc : ℤ × ℕ) jq =>
        if jq.1 ≠ ip.1 ∧ jq.2.cluster_id = own then
          (wrap32 (acc.1 + clustering_distance_euclidean p jq.2), (acc.2 + 1) % 65536)
        else acc) (0, 0)
      let a := if 0 < apair.2 then Int.tdiv apair.1 apair.2 else apair.1
      let b := (List.range r.k).foldl (fun bacc c =>
        if c = own then bacc
        else
          let dpair := pts.foldl (fun (acc : ℤ × ℕ) q =>
            if q.cluster_id = c then
              (wrap32 (acc.1 + clustering_distance_euclidean p q), (acc.2 + 1) % 65536)
            else acc) (0, 0)
          if 0 < dpair.2 then
            let dv := Int.tdiv dpair.1 dpair.2
            if dv < bacc then dv else bacc
          else bacc) FIXED_MAX
      let max_ab := if b < a then a else b
      if 0 < max_ab then wrap32 (tot + fixed_div (wrap32 (b - a)) max_ab) else tot) 0
    Int.tdiv total (pts.length % 65536)

/-- The `k` clamping at the top of `clustering_kmeans`: 0 or more than
`KMEANS_MAX_K` becomes the documented default 3, and `k` never exceeds the
dataset size. -/
def kmeans_clamped_k (pts : List DataPoint) (k0 : ℕ) : ℕ :=
  let k1 := if k0 = 0 ∨ KMEANS_MAX_K < k0 then 3 else k0
  if pts.length < k1 then pts.length else k1

/-- The seeded result at the top of `clustering_kmeans`: zeroed, with the
first `k` points as centroids. -/
def kmeans_seed (pts : List DataPoint) (k0 : ℕ) : KMeansResult :=
  { centroids := fun j =>
      if j < kmeans_clamped_k pts k0 then
        { x := (pts.getD j { x := 0, y := 0, cluster_id := 0 }).x,
          y := (pts.getD j { x := 0, y := 0, cluster_id := 0 }).y,
          point_count := 0, inertia := 0 }
      else zeroCentroid,
    k := kmeans_clamped_k pts k0, iterations := 0, converged := false,
    total_inertia := 0, silhouette_score := 0 }

/-- C `clustering_kmeans`: clamp `k`, seed the centroids with the first `k`
points, iterate, and score.  Returns the result together with the dataset
as mutated by the assignment passes. -/
def clustering_kmeans (pts : List DataPoint) (k0 : ℕ) :
    KMeansResult × List DataPoint :=
  let res := clustering_kmeans_iterative (kmeans_seed pts k0) pts
  ({ res.1 with silhouette_score := clustering_silhouette_score res.2 res.1 }, res.2)

/-- The consistency relation claimed for a k-means result against the
(mutated) dataset: the per-cluster point counts are the exact sizes of the
final assignment classes, they total the dataset size, and every non-empty
cluster's centroid is the truncating division of its wrapping coordinate
sums by its count. -/
def kmeans_consistent (r : KMeansResult) (pts : List DataPoint) : Prop :=
  (∑ j in Finset.range r.k, (r.centroids j).point_count) = pts.length ∧
    ∀ j < r.k,
      (r.centroids j).point_count =
          (pts.filter (fun p => p.cluster_id == j)).length ∧
        (0 < (r.centroids j).point_count →
          (r.centroids j).x = Int.tdiv (kmeans_cluster_sum_x pts j)
              ((r.centroids j).point_count) ∧
            (r.centroids j).y = Int.tdiv (kmeans_cluster_sum_y pts j)
              ((r.centroids j).point_count))

/-! ## Claim theorems and supporting lemmas -/

theorem wrap32_eq_self {x : ℤ} (h1 : -2147483648 ≤ x) (h2 : x < 2147483648) :
    wrap32 x = x := by
  unfold wrap32; omega

theorem wrap16_eq_self {x : ℤ} (h1 : -32768 ≤ x) (h2 : x < 32768) :
    wrap16 x = x := by
  unfold wrap16; omega

/-! ### Claim C6 — fixed-point identity laws -/

/-- C6 counterexample.  The claim states `fixed_mul(a, FIXED_ONE) == a` for
every Q15.16 value `a`, but the "round to nearest" adjustment subtracts the
half-ULP before an arithmetic (flooring) shift when the product is negative,
so every negative `a` comes back decremented: `fixed_mul(-1.0, 1.0)` is
`-65537`, not `-65536`; moreover `fixed_div(-2, -2) = 65535 ≠ FIXED_ONE`. -/
theorem c6_mul_one_counterexample :
    fixed_mul (-65536) FIXED_ONE = -65537 ∧ fixed_div (-2) (-2) = 65535 := by
  constructor <;> decide

/-- C6 (amended): the identity laws hold on the non-negative half of the
Q15.16 range: `fixed_mul a FIXED_ONE = a` for `0 ≤ a < 2^31`, and
`fixed_div a a = FIXED_ONE` for `0 < a < 2^31`. -/
theorem c6_identity_laws_nonneg (a : ℤ) (h0 : 0 ≤ a) (h2 : a < 2147483648) :
    fixed_mul a FIXED_ONE = a ∧ (0 < a → fixed_div a a = FIXED_ONE) := by
  constructor
  · unfold fixed_mul FIXED_ONE
    have ht : (0:ℤ) ≤ a * 65536 := by positivity
    simp only [ht, if_pos]
    have hfd : Int.fdiv (a * 65536 + 32768) 65536 = a := by
      rw [Int.fdiv_eq_ediv _ (by norm_num)]
      rw [show a * 65536 + 32768 = 32768 + a * 65536 by ring]
      rw [Int.add_mul_ediv_right _ _ (by norm_num)]
      norm_num
    rw [hfd]
    exact wrap32_eq_self (by omega) h2
  · intro hpos
    unfold fixed_div FIXED_ONE
    have hne : a ≠ 0 := by omega
    simp only [hne, if_neg, if_false]
    have ht : (0:ℤ) ≤ a * 65536 := by positivity
    simp only [ht, if_pos]
    have hhalf : Int.fdiv a 2 = a / 2 := Int.fdiv_eq_ediv _ (by norm_num)
    have hlt : a / 2 < a := by omega
    have hge : 0 ≤ a / 2 := by omega
    have htd : Int.tdiv (a * 65536 + Int.fdiv a 2) a = 65536 := by
      rw [hhalf]
      rw [Int.tdiv_eq_ediv (by positivity) (le_of_lt hpos)]
      rw [show a * 65536 + a / 2 = a / 2 + 65536 * a by ring]
      rw [Int.add_mul_ediv_right _ _ hne]
      rw [Int.ediv_eq_zero_of_lt hge hlt]
      norm_num
    rw [htd]
    decide

/-- Witness for C6 (amended) at `a = 131072` (= 2.0 in Q15.16). -/
theorem c6_identity_laws_nonneg_witness :
    fixed_mul 131072 FIXED_ONE = 131072 ∧
      (0 < (131072:ℤ) → fixed_div 131072 131072 = FIXED_ONE) :=
  c6_identity_laws_nonneg 131072 (by decide) (by decide)

/-! ### Claim C7 — numerical fallbacks of the fixed-point library -/

/-- C7: the documented numerical fallbacks.  `fixed_div` with zero divisor
returns `FIXED_MAX` for a non-negative numerator and `FIXED_MIN` for a
negative one; `fixed_sqrt` of a negative argument returns 0; `fixed_log` of a
non-positive argument returns `FIXED_MIN`. -/
theorem c7_numeric_fallbacks (a x y : ℤ) (hx : x < 0) (hy : y ≤ 0) :
    fixed_div a 0 = (if 0 ≤ a then FIXED_MAX else FIXED_MIN) ∧
      fixed_sqrt x = 0 ∧ fixed_log y = FIXED_MIN := by
  refine ⟨?_, ?_, ?_⟩
  · unfold fixed_div; simp
  · unfold fixed_sqrt
    simp only [if_pos (le_of_lt hx)]
  · unfold fixed_log
    simp only [if_pos hy]

/-- Witness for C7 at `a = 5`, `x = -3`, `y = 0`. -/
theorem c7_numeric_fallbacks_witness :
    fixed_div 5 0 = (if 0 ≤ (5:ℤ) then FIXED_MAX else FIXED_MIN) ∧
      fixed_sqrt (-3) = 0 ∧ fixed_log 0 = FIXED_MIN :=
  c7_numeric_fallbacks 5 (-3) 0 (by decide) (by decide)

/-! ### Claim C2 — stored fingerprint hash -/

set_option maxRecDepth 10000 in
/-- C2: the record produced by `fingerprinting_generate_fingerprint` into a
caller-owned output buffer does *not* carry the CRC-16-CCITT of its other
fields.  The CRC is computed over the output buffer's stale bytes *before*
the `memcpy` from `capture_state.current_fingerprint` overwrites the whole
record, hash included, so the stored hash is whatever was in the capture
state (0 after `fingerprinting_start_capture`), while the CRC over the
produced record's other fields is 10821. -/
theorem c2_stored_hash_is_stale :
    (fingerprinting_generate_fingerprint startedCaptureState zeroFingerprint).2.unique_hash = 0 ∧
      fingerprinting_calculate_hash
        (fingerprinting_generate_fingerprint startedCaptureState zeroFingerprint).2 = 10821 ∧
      (10821 : ℕ) ≠ 0 := by
  refine ⟨rfl, by rfl, by decide⟩

/-! ### Claim C10 — symbol-timing division in the sampling path -/

/-- C10: the ingest interface admits frames with `length ∈ [0, 64]`, but
`fingerprinting_process_frame` computes `duration_us / frame->length` with
no guard, so a zero-length admitted frame reaches a division by zero while
the engine is sampling (modelled as the `none` outcome). -/
theorem c10_symbol_timing_division_by_zero :
    frame_admitted { data := [], length := 0, timestamp_us := 1000,
                     rssi_dbm := 50, duration_us := 500 } ∧
      fingerprinting_process_frame startedCaptureState
        { data := [], length := 0, timestamp_us := 1000,
          rssi_dbm := 50, duration_us := 500 } = none := by
  exact ⟨⟨by decide, by decide⟩, by rfl⟩

/-! ### Claim C1 — codec round-trip -/

/-- C1: the delta round-trip identity fails.  For the 4-byte input
`[0x80, 0x00, 0x00, 0x00]` the encoder emits the delta -128 as the single
byte 0x80 (the escape code): the encoding is `[0x80, 0x80, 0x00, 0x00]`,
which fits the 1024-byte block bound, but the decoder takes the second 0x80
as an escape and consumes the following two zero bytes as a 16-bit delta,
returning `[0x80, 0x80]` instead of the original input. -/
theorem c1_delta_roundtrip_fails :
    delta_encode [128, 0, 0, 0] = [128, 128, 0, 0] ∧
      delta_decode [128, 128, 0, 0] = [128, 128] ∧
      delta_decode (delta_encode [128, 0, 0, 0]) ≠ [128, 0, 0, 0] := by
  refine ⟨by decide, by decide, by decide⟩

/-! ### Claim C5 — vulnerability score range and band map -/

/-- C5: every assessment produced by the threat model has
`vulnerability_score ∈ [0, 1000]` and the level agrees with the band map
(Critical iff ≥ 900, High iff 700-899, Medium iff 400-699, Low otherwise),
both for the full analysis and for the quick single-frame path. -/
theorem c5_score_range_and_band_map (c : ThreatScoreInputs)
    (e2 allsame e4 : Bool) :
    (threat_model_assessment c).vulnerability_score ≤ 1000 ∧
      ((threat_model_assessment c).level = RiskLevel.critical ↔
        900 ≤ (threat_model_assessment c).vulnerability_score) ∧
      ((threat_model_assessment c).level = RiskLevel.high ↔
        700 ≤ (threat_model_assessment c).vulnerability_score ∧
          (threat_model_assessment c).vulnerability_score < 900) ∧
      ((threat_model_assessment c).level = RiskLevel.medium ↔
        400 ≤ (threat_model_assessment c).vulnerability_score ∧
          (threat_model_assessment c).vulnerability_score < 700) ∧
      ((threat_model_assessment c).level = RiskLevel.low ↔
        (threat_model_assessment c).vulnerability_score < 400) ∧
      (threat_model_quick_assess e2 allsame e4).vulnerability_score ≤ 1000 ∧
      ((threat_model_quick_assess e2 allsame e4).level = RiskLevel.high ↔
        700 ≤ (threat_model_quick_assess e2 allsame e4).vulnerability_score ∧
          (threat_model_quick_assess e2 allsame e4).vulnerability_score < 900) := by
  have hclamp : threat_model_calculate_vulnerability_score c ≤ 1000 := by
    unfold threat_model_calculate_vulnerability_score
    split <;> omega
  unfold threat_model_assessment threat_model_calculate_risk_level
    VULN_SCORE_CRITICAL VULN_SCORE_HIGH VULN_SCORE_MEDIUM VULN_SCORE_LOW
  dsimp only
  set s := threat_model_calculate_vulnerability_score c with hs
  refine ⟨hclamp, ?_, ?_, ?_, ?_, ?_, ?_⟩
  · split_ifs <;> simp_all
  · split_ifs <;> simp_all
  · split_ifs <;> simp_all
    omega
  · split_ifs <;> simp_all <;> omega
  · unfold threat_model_quick_assess
    split_ifs <;> simp
  · unfold threat_model_quick_assess
    split_ifs <;> simp

/-! ### Claim C9 — modulation classifier -/

/-- C9 counterexample.  The claim quantifies over every analyzed pulse
population, but the pipeline also runs with fewer than 10 pulses whenever at
least 2 frames were accumulated, and then the classifier returns
`MOD_UNKNOWN` even though more than a third (here: all) of the pulses are
longer than 1000 µs, where the claim requires OOK. -/
theorem c9_small_population_counterexample :
    protocol_infer_analyze_runs 9 2 ∧
      3 * ((List.replicate 9 (Pulse.mk 2000 1 0)).filter
            (fun p => 1000 < p.width_us)).length >
          (List.replicate 9 (Pulse.mk 2000 1 0)).length ∧
      protocol_infer_detect_modulation_type
          (List.replicate 9 (Pulse.mk 2000 1 0)) 0 = ModulationType.unknown ∧
      ModulationType.unknown ≠ ModulationType.ook := by
  refine ⟨by decide, by decide, by decide, by decide⟩

/-- C9 (amended): for every population of at least 10 pulses the classifier
returns OOK exactly when more than a third of the pulses are wider than
1000 µs, otherwise FSK exactly when at least two pulse clusters were
detected, otherwise ASK — OOK taking precedence over FSK over ASK. -/
theorem c9_modulation_classifier (pulses : List Pulse) (cluster_count : ℕ)
    (h : 10 ≤ pulses.length) :
    protocol_infer_detect_modulation_type pulses cluster_count =
      (if pulses.length <
          3 * (pulses.filter (fun p => 1000 < p.width_us)).length then
        ModulationType.ook
      else if 2 ≤ cluster_count then ModulationType.fsk
      else ModulationType.ask) := by
  unfold protocol_infer_detect_modulation_type
  rw [if_neg (by omega)]
  have hiff : pulses.length / 3 < (pulses.filter (fun p => 1000 < p.width_us)).length ↔
      pulses.length < 3 * (pulses.filter (fun p => 1000 < p.width_us)).length := by
    omega
  simp only [hiff]

/-- Witness for C9 (amended): ten long mark pulses classify as OOK. -/
theorem c9_modulation_classifier_witness :
    protocol_infer_detect_modulation_type
        (List.replicate 10 (Pulse.mk 2000 1 0)) 0 =
      (if (List.replicate 10 (Pulse.mk 2000 1 0)).length <
          3 * ((List.replicate 10 (Pulse.mk 2000 1 0)).filter
                (fun p => 1000 < p.width_us)).length then
        ModulationType.ook
      else if 2 ≤ (0:ℕ) then ModulationType.fsk
      else ModulationType.ask) :=
  c9_modulation_classifier (List.replicate 10 (Pulse.mk 2000 1 0)) 0 (by decide)

/-! ### Claim C3 — Welford accuracy -/

/-- C3 counterexample.  After adding the two samples `1.0` (raw 65536) and
`0`, the exact mean is `0.5` but the stored mean is `-2147450880` raw: the
second update converts the signed delta `-65536` to `uint32_t` before
dividing by `n = 2`.  In particular the stored mean is not within ±1 ULP of
`Σxᵢ/n` (which would need `|2·mean - 65536| ≤ 2`). -/
theorem c3_mean_counterexample :
    (welford_add_sample (welford_add_sample welford_init 65536) 0).mean =
        -2147450880 ∧
      ¬(|2 * (welford_add_sample (welford_add_sample welford_init 65536) 0).mean
          - 65536| ≤ 2) := by
  refine ⟨by decide, by decide⟩

theorem welford_foldl_n (l : List ℤ) :
    ∀ s : WelfordState, s.n + l.length < 4294967296 →
      (l.foldl welford_add_sample s).n = s.n + l.length := by
  induction l with
  | nil => intro s _; simp
  | cons a t ih =>
    intro s h
    rw [List.foldl_cons]
    have hstep : (welford_add_sample s a).n = s.n + 1 := by
      unfold welford_add_sample
      dsimp only
      simp only [List.length_cons] at h
      omega
    rw [ih _ (by rw [hstep]; simp only [List.length_cons] at h ⊢; omega)]
    rw [hstep]
    simp only [List.length_cons]
    omega

theorem welford_foldl_min (l : List ℤ) :
    ∀ s : WelfordState,
      (l.foldl welford_add_sample s).min_val ≤ s.min_val ∧
        (∀ x ∈ l, (l.foldl welford_add_sample s).min_val ≤ x) ∧
        ((l.foldl welford_add_sample s).min_val = s.min_val ∨
          (l.foldl welford_add_sample s).min_val ∈ l) := by
  induction l with
  | nil => intro s; simp
  | cons a t ih =>
    intro s
    rw [List.foldl_cons]
    obtain ⟨h1, h2, h3⟩ := ih (welford_add_sample s a)
    have hstep : (welford_add_sample s a).min_val = if a < s.min_val then a else s.min_val := rfl
    refine ⟨?_, ?_, ?_⟩
    · rw [hstep] at h1
      split at h1 <;> omega
    · intro x hx
      rcases List.mem_cons.mp hx with hxa | hxt
      · subst hxa
        rw [hstep] at h1
        split at h1 <;> omega
      · exact h2 x hxt
    · rcases h3 with heq | hmem
      · rw [hstep] at heq
        split at heq
        · right; rw [heq]; exact List.mem_cons_self a t
        · left; exact heq
      · right; exact List.mem_cons_of_mem a hmem

theorem welford_foldl_max (l : List ℤ) :
    ∀ s : WelfordState,
      s.max_val ≤ (l.foldl welford_add_sample s).max_val ∧
        (∀ x ∈ l, x ≤ (l.foldl welford_add_sample s).max_val) ∧
        ((l.foldl welford_add_sample s).max_val = s.max_val ∨
          (l.foldl welford_add_sample s).max_val ∈ l) := by
  induction l with
  | nil => intro s; simp
  | cons a t ih =>
    intro s
    rw [List.foldl_cons]
    obtain ⟨h1, h2, h3⟩ := ih (welford_add_sample s a)
    have hstep : (welford_add_sample s a).max_val = if s.max_val < a then a else s.max_val := rfl
    refine ⟨?_, ?_, ?_⟩
    · rw [hstep] at h1
      split at h1 <;> omega
    · intro x hx
      rcases List.mem_cons.mp hx with hxa | hxt
      · subst hxa
        rw [hstep] at h1
        split at h1 <;> omega
      · exact h2 x hxt
    · rcases h3 with heq | hmem
      · rw [hstep] at heq
        split at heq
        · right; rw [heq]; exact List.mem_cons_self a t
        · left; exact heq
      · right; exact List.mem_cons_of_mem a hmem

/-- C3 (amended): what survives of the claim on the code.  After folding `n`
samples (each a valid `fixed_t`) into a fresh accumulator, `n` counts the
samples exactly, `min_val`/`max_val` are the exact extrema of the samples,
and for `n < 2` the returned variance is 0.  The ±1 ULP accuracy of the
stored mean (and hence of the variance) does not hold — see the
counterexample. -/
theorem c3_welford_state (l : List ℤ) (hne : l ≠ [])
    (hlen : l.length < 4294967296)
    (hrange : ∀ x ∈ l, FIXED_MIN ≤ x ∧ x ≤ FIXED_MAX) :
    (l.foldl welford_add_sample welford_init).n = l.length ∧
      (l.foldl welford_add_sample welford_init).min_val ∈ l ∧
      (l.foldl welford_add_sample welford_init).max_val ∈ l ∧
      (∀ x ∈ l, (l.foldl welford_add_sample welford_init).min_val ≤ x ∧
        x ≤ (l.foldl welford_add_sample welford_init).max_val) ∧
      (l.length < 2 →
        welford_get_variance (l.foldl welford_add_sample welford_init) = 0) := by
  have hn := welford_foldl_n l welford_init (by simp only [welford_init]; omega)
  obtain ⟨hmin1, hmin2, hmin3⟩ := welford_foldl_min l welford_init
  obtain ⟨hmax1, hmax2, hmax3⟩ := welford_foldl_max l welford_init
  obtain ⟨y, hy⟩ := List.exists_mem_of_ne_nil l hne
  have hnz : (l.foldl welford_add_sample welford_init).n = l.length := by
    rw [hn]; simp [welford_init]
  refine ⟨hnz, ?_, ?_, fun x hx => ⟨hmin2 x hx, hmax2 x hx⟩, ?_⟩
  · rcases hmin3 with heq | hmem
    · have h1 := hmin2 y hy
      have h2 := (hrange y hy).2
      rw [heq]
      have : y = FIXED_MAX := by
        rw [heq] at h1
        unfold welford_init at h1
        dsimp only at h1
        omega
      unfold welford_init
      dsimp only
      rw [← this]
      exact hy
    · exact hmem
  · rcases hmax3 with heq | hmem
    · have h1 := hmax2 y hy
      have h2 := (hrange y hy).1
      rw [heq]
      have : y = FIXED_MIN := by
        rw [heq] at h1
        unfold welford_init at h1
        dsimp only at h1
        omega
      unfold welford_init
      dsimp only
      rw [← this]
      exact hy
    · exact hmem
  · intro hlt
    unfold welford_get_variance
    rw [if_pos (by omega)]

/-- Witness for C3 (amended) on the single sample list `[65536]`. -/
theorem c3_welford_state_witness :
    (([65536] : List ℤ).foldl welford_add_sample welford_init).n = 1 ∧
      (([65536] : List ℤ).foldl welford_add_sample welford_init).min_val ∈
        ([65536] : List ℤ) ∧
      (([65536] : List ℤ).foldl welford_add_sample welford_init).max_val ∈
        ([65536] : List ℤ) ∧
      (∀ x ∈ ([65536] : List ℤ),
        (([65536] : List ℤ).foldl welford_add_sample welford_init).min_val ≤ x ∧
          x ≤ (([65536] : List ℤ).foldl welford_add_sample welford_init).max_val) ∧
      (([65536] : List ℤ).length < 2 →
        welford_get_variance
          (([65536] : List ℤ).foldl welford_add_sample welford_init) = 0) := by
  have h := c3_welford_state [65536] (by decide) (by decide)
    (by intro x hx; simp at hx; subst hx; constructor <;> decide)
  simpa using h

theorem histogram_clamped_bins_le (num_bins : ℕ) :
    histogram_clamped_bins num_bins ≤ 256 := by
  unfold histogram_clamped_bins HISTOGRAM_MAX_BINS
  split <;> omega

theorem histogram_init_wf {num_bins : ℕ} {mn mx : ℤ} {h0 : Histogram}
    (hinit : histogram_init num_bins mn mx = some h0) : histogram_wf h0 := by
  have hle := histogram_clamped_bins_le num_bins
  unfold histogram_init at hinit
  split at hinit
  · exact absurd hinit (by simp)
  · rename_i hn
    have heq := Option.some.inj hinit
    subst heq
    refine ⟨?_, ?_, ?_, rfl, fun j _ => le_refl 0, by simp⟩ <;> dsimp only <;> omega

theorem histogram_init_total {num_bins : ℕ} {mn mx : ℤ} {h0 : Histogram}
    (hinit : histogram_init num_bins mn mx = some h0) : h0.total_samples = 0 := by
  unfold histogram_init at hinit
  split at hinit
  · exact absurd hinit (by simp)
  · have heq := Option.some.inj hinit
    subst heq
    rfl

theorem histogram_bin_index_lt (h : Histogram) (v : ℤ) (hnb : 1 ≤ h.num_bins) :
    histogram_bin_index h v < h.num_bins := by
  unfold histogram_bin_index
  dsimp only
  split <;> omega

theorem histogram_add_wf (h : Histogram) (v : ℤ) (hwf : histogram_wf h)
    (htot : h.total_samples ≤ 65534) :
    histogram_wf (histogram_add h v) ∧
      (histogram_add h v).total_samples ≤ h.total_samples + 1 := by
  obtain ⟨hnb1, hnb2, hpb, hpeak, hmax, hsum⟩ := hwf
  unfold histogram_add
  split
  · exact ⟨⟨hnb1, hnb2, hpb, hpeak, hmax, hsum⟩, by omega⟩
  · dsimp only
    have hblt : histogram_bin_index h v < h.num_bins := histogram_bin_index_lt h v hnb1
    have hbmem : histogram_bin_index h v ∈ Finset.range h.num_bins :=
      Finset.mem_range.mpr hblt
    have hble : h.bins (histogram_bin_index h v) ≤ h.total_samples := by
      rw [← hsum]
      exact Finset.single_le_sum (fun i _ => Nat.zero_le _) hbmem
    have hc' : (h.bins (histogram_bin_index h v) + 1) % 65536 =
        h.bins (histogram_bin_index h v) + 1 := by
      apply Nat.mod_eq_of_lt; omega
    have htot' : (h.total_samples + 1) % 4294967296 = h.total_samples + 1 := by
      apply Nat.mod_eq_of_lt; omega
    rw [hc', htot']
    have hupd_sum : (∑ j in Finset.range h.num_bins,
        Function.update h.bins (histogram_bin_index h v)
          (h.bins (histogram_bin_index h v) + 1) j) = h.total_samples + 1 := by
      rw [Finset.sum_update_of_mem hbmem]
      have hsplit := Finset.add_sum_erase (Finset.range h.num_bins) h.bins hbmem
      rw [Finset.erase_eq] at hsplit
      omega
    split
    · rename_i hlt
      have hlt2 : h.peak_count < h.bins (histogram_bin_index h v) + 1 := hlt
      refine ⟨⟨hnb1, hnb2, hblt, ?_, ?_, ?_⟩, ?_⟩
      · simp only [Function.update_same]
      · intro j hj
        have hj2 : j < h.num_bins := hj
        by_cases hjb : j = histogram_bin_index h v
        · subst hjb
          simp only [Function.update_same]
          exact le_refl _
        · simp only [Function.update_noteq hjb]
          exact le_trans (hmax j hj2) (by omega)
      · exact hupd_sum
      · dsimp only
        omega
    · rename_i hnlt
      have hnlt2 : ¬h.peak_count < h.bins (histogram_bin_index h v) + 1 := hnlt
      have hpbne : h.peak_bin ≠ histogram_bin_index h v := by
        intro he
        rw [he] at hpeak
        omega
      refine ⟨⟨hnb1, hnb2, hpb, ?_, ?_, ?_⟩, ?_⟩
      · simp only [Function.update_noteq hpbne]
        exact hpeak
      · intro j hj
        have hj2 : j < h.num_bins := hj
        by_cases hjb : j = histogram_bin_index h v
        · subst hjb
          simp only [Function.update_same]
          omega
        · simp only [Function.update_noteq hjb]
          exact hmax j hj2
      · exact hupd_sum
      · dsimp only
        omega

theorem histogram_foldl_wf (l : List ℤ) :
    ∀ h : Histogram, histogram_wf h → h.total_samples + l.length ≤ 65535 →
      histogram_wf (l.foldl histogram_add h) ∧
        (l.foldl histogram_add h).total_samples ≤ h.total_samples + l.length := by
  induction l with
  | nil => intro h hwf _; simpa using hwf
  | cons a t ih =>
    intro h hwf hlen
    rw [List.foldl_cons]
    simp only [List.length_cons] at hlen ⊢
    obtain ⟨hwf', htot'⟩ := histogram_add_wf h a hwf (by omega)
    obtain ⟨hwf'', htot''⟩ := ih (histogram_add h a) hwf' (by omega)
    exact ⟨hwf'', by omega⟩

/-! ### Claim C8 — histogram peak and total invariants -/

/-- C8 counterexample.  The claim quantifies over states reachable by any
sequence of histogram operations, but `histogram_normalize` rescales the
bins in place while leaving `peak_count` and `total_samples` untouched:
after two `histogram_add 0` into a one-bin histogram and a normalize, the
peak bin holds 0 while `peak_count = 2`, and the bins sum to 0 while
`total_samples = 2`. -/
theorem c8_normalize_counterexample :
    ((histogram_init 1 0 0).map (fun h0 =>
        ((histogram_normalize (histogram_add (histogram_add h0 0) 0)).bins
            (histogram_normalize (histogram_add (histogram_add h0 0) 0)).peak_bin,
          (histogram_normalize (histogram_add (histogram_add h0 0) 0)).peak_count,
          ∑ j in Finset.range
            (histogram_normalize (histogram_add (histogram_add h0 0) 0)).num_bins,
            (histogram_normalize (histogram_add (histogram_add h0 0) 0)).bins j,
          (histogram_normalize (histogram_add (histogram_add h0 0) 0)).total_samples)))
      = some (0, 2, 0, 2) ∧ (0 : ℕ) ≠ 2 := by
  constructor
  · rfl
  · decide

/-- C8 (amended): for every histogram state reachable from a successful
`histogram_init` by `histogram_add` operations only, with at most 65535
samples added, the bin indexed by `peak_bin` holds `peak_count`,
`peak_count` is the maximum count over the bins, and the bins sum to
`total_samples`.  (`histogram_normalize` destroys the invariant, and a
65536th accepted sample would wrap the `uint16_t` bin.) -/
theorem c8_histogram_add_invariant (num_bins : ℕ) (mn mx : ℤ) (h0 : Histogram)
    (l : List ℤ) (hinit : histogram_init num_bins mn mx = some h0)
    (hlen : l.length ≤ 65535) :
    (l.foldl histogram_add h0).bins (l.foldl histogram_add h0).peak_bin =
        (l.foldl histogram_add h0).peak_count ∧
      (∀ j < (l.foldl histogram_add h0).num_bins,
        (l.foldl histogram_add h0).bins j ≤ (l.foldl histogram_add h0).peak_count) ∧
      (∑ j in Finset.range (l.foldl histogram_add h0).num_bins,
        (l.foldl histogram_add h0).bins j) = (l.foldl histogram_add h0).total_samples := by
  have h0wf := histogram_init_wf hinit
  have h0tot := histogram_init_total hinit
  obtain ⟨hwf, -⟩ := histogram_foldl_wf l h0 h0wf (by omega)
  exact ⟨hwf.2.2.2.1, hwf.2.2.2.2.1, hwf.2.2.2.2.2⟩

/-- Witness for C8 (amended): two samples into a two-bin histogram over
`[0, 2.0]`. -/
theorem c8_histogram_add_invariant_witness :
    (([0, 65536] : List ℤ).foldl histogram_add
        { bins := fun _ => 0, num_bins := 2, min_val := 0, max_val := 131072,
          bin_width := 65536, total_samples := 0, peak_bin := 0,
          peak_count := 0 }).bins
        (([0, 65536] : List ℤ).foldl histogram_add
          { bins := fun _ => 0, num_bins := 2, min_val := 0, max_val := 131072,
            bin_width := 65536, total_samples := 0, peak_bin := 0,
            peak_count := 0 }).peak_bin =
      (([0, 65536] : List ℤ).foldl histogram_add
        { bins := fun _ => 0, num_bins := 2, min_val := 0, max_val := 131072,
          bin_width := 65536, total_samples := 0, peak_bin := 0,
          peak_count := 0 }).peak_count ∧
      (∀ j < (([0, 65536] : List ℤ).foldl histogram_add
          { bins := fun _ => 0, num_bins := 2, min_val := 0, max_val := 131072,
            bin_width := 65536, total_samples := 0, peak_bin := 0,
            peak_count := 0 }).num_bins,
        (([0, 65536] : List ℤ).foldl histogram_add
          { bins := fun _ => 0, num_bins := 2, min_val := 0, max_val := 131072,
            bin_width := 65536, total_samples := 0, peak_bin := 0,
            peak_count := 0 }).bins j ≤
          (([0, 65536] : List ℤ).foldl histogram_add
            { bins := fun _ => 0, num_bins := 2, min_val := 0, max_val := 131072,
              bin_width := 65536, total_samples := 0, peak_bin := 0,
              peak_count := 0 }).peak_count) ∧
      (∑ j in Finset.range (([0, 65536] : List ℤ).foldl histogram_add
          { bins := fun _ => 0, num_bins := 2, min_val := 0, max_val := 131072,
            bin_width := 65536, total_samples := 0, peak_bin := 0,
            peak_count := 0 }).num_bins,
        (([0, 65536] : List ℤ).foldl histogram_add
          { bins := fun _ => 0, num_bins := 2, min_val := 0, max_val := 131072,
            bin_width := 65536, total_samples := 0, peak_bin := 0,
            peak_count := 0 }).bins j) =
        (([0, 65536] : List ℤ).foldl histogram_add
          { bins := fun _ => 0, num_bins := 2, min_val := 0, max_val := 131072,
            bin_width := 65536, total_samples := 0, peak_bin := 0,
            peak_count := 0 }).total_samples :=
  c8_histogram_add_invariant 2 0 131072 _ [0, 65536] rfl (by decide)

theorem kmeans_best_cluster_lt (cents : ℕ → Centroid) (k : ℕ) (p : DataPoint)
    (hk : 1 ≤ k) : (kmeans_best_cluster cents k p).1 < k := by
  unfold kmeans_best_cluster
  have hgen : ∀ (l : List ℕ) (acc : ℕ × ℤ), (∀ j ∈ l, j < k) → acc.1 < k →
      (l.foldl (kmeans_best_step cents p) acc).1 < k := by
    intro l
    induction l with
    | nil => intro acc _ hacc; simpa using hacc
    | cons a t ih =>
      intro acc hmem hacc
      rw [List.foldl_cons]
      apply ih
      · intro j hj; exact hmem j (List.mem_cons_of_mem a hj)
      · unfold kmeans_best_step
        dsimp only
        split
        · exact hmem a (List.mem_cons_self a t)
        · exact hacc
  apply hgen
  · intro j hj; exact List.mem_range.mp hj
  · simpa using hk

theorem length_eq_sum_filter (l : List DataPoint) (k : ℕ)
    (h : ∀ p ∈ l, p.cluster_id < k) :
    (∑ j in Finset.range k, (l.filter (fun p => p.cluster_id == j)).length) =
      l.length := by
  induction l with
  | nil => simp
  | cons p t ih =>
    have hp : p.cluster_id < k := h p (List.mem_cons_self p t)
    have ht : ∀ q ∈ t, q.cluster_id < k := fun q hq => h q (List.mem_cons_of_mem p hq)
    have hterm : ∀ j ∈ Finset.range k,
        ((p :: t).filter (fun q => q.cluster_id == j)).length =
          (if p.cluster_id = j then 1 else 0) +
            (t.filter (fun q => q.cluster_id == j)).length := by
      intro j _
      by_cases hpj : p.cluster_id = j
      · simp [List.filter_cons, hpj]
        omega
      · simp [List.filter_cons, hpj]
    rw [Finset.sum_congr rfl hterm, Finset.sum_add_distrib]
    have hone : (∑ j in Finset.range k, if p.cluster_id = j then 1 else 0) = 1 := by
      rw [Finset.sum_ite_eq (Finset.range k) p.cluster_id (fun _ => 1)]
      simp [Finset.mem_range.mpr hp]
    rw [hone, ih ht]
    simp [Nat.add_comm]

theorem assign_points_fst_k (r : KMeansResult) (pts : List DataPoint) :
    (clustering_kmeans_assign_points r pts).1.k = r.k := rfl

theorem assign_points_snd (r : KMeansResult) (pts : List DataPoint) :
    (clustering_kmeans_assign_points r pts).2 =
      pts.map (fun p =>
        { p with cluster_id := (kmeans_best_cluster r.centroids r.k p).1 }) := rfl

theorem assign_points_centroid (r : KMeansResult) (pts : List DataPoint) (j : ℕ) :
    (clustering_kmeans_assign_points r pts).1.centroids j =
      (if j < r.k then
        { r.centroids j with
          point_count :=
            ((clustering_kmeans_assign_points r pts).2.filter
              (fun p => p.cluster_id == j)).length % 65536,
          inertia := pts.foldl (fun s p =>
            let bd := kmeans_best_cluster r.centroids r.k p
            if bd.1 = j then wrap32 (s + fixed_mul bd.2 bd.2) else s) 0 }
      else r.centroids j) := rfl

theorem update_centroids_k (r : KMeansResult) (pts : List DataPoint) :
    (clustering_kmeans_update_centroids r pts).k = r.k := rfl

theorem update_centroids_centroid (r : KMeansResult) (pts : List DataPoint) (j : ℕ) :
    (clustering_kmeans_update_centroids r pts).centroids j =
      (if j < r.k ∧ 0 < kmeans_cluster_count pts j then
        { r.centroids j with
          x := Int.tdiv (kmeans_cluster_sum_x pts j) (kmeans_cluster_count pts j),
          y := Int.tdiv (kmeans_cluster_sum_y pts j) (kmeans_cluster_count pts j) }
      else r.centroids j) := rfl

theorem kmeans_step_consistent (r : KMeansResult) (pts : List DataPoint)
    (hk : pts = [] ∨ 1 ≤ r.k) (hlen : pts.length < 65536) :
    kmeans_consistent
      (clustering_kmeans_update_centroids
        (clustering_kmeans_assign_points r pts).1
        (clustering_kmeans_assign_points r pts).2)
      (clustering_kmeans_assign_points r pts).2 := by
  have hlen2 : (clustering_kmeans_assign_points r pts).2.length = pts.length := by
    rw [assign_points_snd, List.length_map]
  have hcl : ∀ p ∈ (clustering_kmeans_assign_points r pts).2, p.cluster_id < r.k := by
    intro p hp
    rw [assign_points_snd] at hp
    obtain ⟨q, hq, hqe⟩ := List.mem_map.mp hp
    rcases hk with hnil | hk1
    · subst hnil; simp at hq
    · rw [← hqe]
      exact kmeans_best_cluster_lt r.centroids r.k q hk1
  have hfle : ∀ j, ((clustering_kmeans_assign_points r pts).2.filter
      (fun p => p.cluster_id == j)).length % 65536 =
      ((clustering_kmeans_assign_points r pts).2.filter
        (fun p => p.cluster_id == j)).length := by
    intro j
    apply Nat.mod_eq_of_lt
    calc ((clustering_kmeans_assign_points r pts).2.filter
        (fun p => p.cluster_id == j)).length
        ≤ (clustering_kmeans_assign_points r pts).2.length :=
          List.length_filter_le _ _
      _ < 65536 := by rw [hlen2]; exact hlen
  have hA1pc : ∀ j, j < r.k →
      ((clustering_kmeans_assign_points r pts).1.centroids j).point_count =
        ((clustering_kmeans_assign_points r pts).2.filter
          (fun p => p.cluster_id == j)).length := by
    intro j hj
    rw [assign_points_centroid, if_pos hj]
    exact hfle j
  have hupd_pc : ∀ j,
      ((clustering_kmeans_update_centroids
        (clustering_kmeans_assign_points r pts).1
        (clustering_kmeans_assign_points r pts).2).centroids j).point_count =
      ((clustering_kmeans_assign_points r pts).1.centroids j).point_count := by
    intro j
    rw [update_centroids_centroid]
    split
    · rfl
    · rfl
  have hcnt : ∀ j, kmeans_cluster_count (clustering_kmeans_assign_points r pts).2 j =
      ((clustering_kmeans_assign_points r pts).2.filter
        (fun p => p.cluster_id == j)).length := by
    intro j
    unfold kmeans_cluster_count
    exact hfle j
  constructor
  · rw [update_centroids_k, assign_points_fst_k]
    rw [Finset.sum_congr rfl (fun j hj => by
      rw [hupd_pc j, hA1pc j (Finset.mem_range.mp hj)])]
    rw [length_eq_sum_filter _ _ hcl]
  · intro j hj
    rw [update_centroids_k, assign_points_fst_k] at hj
    refine ⟨by rw [hupd_pc j, hA1pc j hj], ?_⟩
    intro hpos
    rw [hupd_pc j, hA1pc j hj] at hpos
    rw [hupd_pc j, hA1pc j hj]
    rw [update_centroids_centroid,
      if_pos (⟨by rw [assign_points_fst_k]; exact hj, by rw [hcnt j]; exact hpos⟩ :
        j < (clustering_kmeans_assign_points r pts).1.k ∧
          0 < kmeans_cluster_count (clustering_kmeans_assign_points r pts).2 j)]
    rw [hcnt j]
    exact ⟨rfl, rfl⟩

theorem kmeans_loop_consistent (fuel : ℕ) :
    ∀ (r : KMeansResult) (pts : List DataPoint) (iter : ℕ),
      1 ≤ fuel → (pts = [] ∨ 1 ≤ r.k) → pts.length < 65536 →
      kmeans_consistent (kmeans_loop fuel r pts iter).1
          (kmeans_loop fuel r pts iter).2 ∧
        (kmeans_loop fuel r pts iter).2.length = pts.length ∧
        (kmeans_loop fuel r pts iter).1.k = r.k := by
  induction fuel with
  | zero => intro r pts iter h1 _ _; exact absurd h1 (by omega)
  | succ n ih =>
    intro r pts iter _ hk hlen
    have hstep := kmeans_step_consistent r pts hk hlen
    have hlen2 : (clustering_kmeans_assign_points r pts).2.length = pts.length := by
      rw [assign_points_snd, List.length_map]
    have hnil2 : pts = [] → (clustering_kmeans_assign_points r pts).2 = [] := by
      intro hnil; subst hnil; rfl
    simp only [kmeans_loop]
    split
    · exact ⟨hstep, hlen2, rfl⟩
    · match n with
      | 0 => exact ⟨hstep, hlen2, rfl⟩
      | m + 1 =>
        have hk' : (clustering_kmeans_assign_points r pts).2 = [] ∨
            1 ≤ ({ clustering_kmeans_update_centroids
                (clustering_kmeans_assign_points r pts).1
                (clustering_kmeans_assign_points r pts).2 with
                iterations := iter + 1 } : KMeansResult).k := by
          rcases hk with hnil | hk1
          · exact Or.inl (hnil2 hnil)
          · exact Or.inr hk1
        obtain ⟨hc, hl, hkk⟩ := ih
          { clustering_kmeans_update_centroids
              (clustering_kmeans_assign_points r pts).1
              (clustering_kmeans_assign_points r pts).2 with
            iterations := iter + 1 }
          (clustering_kmeans_assign_points r pts).2 (iter + 1)
          (by omega) hk' (by rw [hlen2]; exact hlen)
        exact ⟨hc, by rw [hl]; exact hlen2, hkk⟩

theorem kmeans_clamped_k_pos (pts : List DataPoint) (k0 : ℕ) (hne : pts ≠ []) :
    1 ≤ kmeans_clamped_k pts k0 := by
  have hpos : 1 ≤ pts.length := List.length_pos.mpr hne
  unfold kmeans_clamped_k KMEANS_MAX_K
  dsimp only
  split_ifs <;> omega

/-! ### Claim C4 — converged k-means results -/

/-- C4 counterexample.  On the two-point dataset `{(0,0), (2⁻¹⁶, 0)}` with
`k = 1` the run converges, both points land in cluster 0
(`point_count = 2`), but the centroid `x` is the truncating division
`1 / 2 = 0`: twice the centroid coordinate differs from the coordinate sum
1, so the centroid is *not* exactly the arithmetic mean of its assigned
points. -/
theorem c4_truncated_mean_counterexample :
    (clustering_kmeans [⟨0, 0, 0⟩, ⟨1, 0, 0⟩] 1).1.converged = true ∧
      ((clustering_kmeans [⟨0, 0, 0⟩, ⟨1, 0, 0⟩] 1).1.centroids 0).point_count = 2 ∧
      ((clustering_kmeans [⟨0, 0, 0⟩, ⟨1, 0, 0⟩] 1).1.centroids 0).x = 0 ∧
      kmeans_cluster_sum_x (clustering_kmeans [⟨0, 0, 0⟩, ⟨1, 0, 0⟩] 1).2 0 = 1 ∧
      (2 : ℤ) * ((clustering_kmeans [⟨0, 0, 0⟩, ⟨1, 0, 0⟩] 1).1.centroids 0).x ≠
        kmeans_cluster_sum_x (clustering_kmeans [⟨0, 0, 0⟩, ⟨1, 0, 0⟩] 1).2 0 := by
  refine ⟨by decide, by decide, by decide, by decide, by decide⟩

/-- C4 (amended): for every dataset (of fewer than 2^16 points, the
`uint16_t` counter range) and every requested `k`, the returned result —
converged or not, so in particular every converged one — satisfies: the
per-cluster `point_count`s are the exact class sizes of the final
assignment and sum to `dataset.count`, and every non-empty cluster's
centroid is the *truncating division* of its (wrapping) coordinate sums by
its count.  Exact arithmetic means do not hold (see the counterexample). -/
theorem c4_kmeans_consistency (pts : List DataPoint) (k0 : ℕ)
    (hlen : pts.length < 65536)
    (_hconv : (clustering_kmeans pts k0).1.converged = true) :
    kmeans_consistent (clustering_kmeans pts k0).1 (clustering_kmeans pts k0).2 ∧
      (clustering_kmeans pts k0).2.length = pts.length := by
  have hk0 : pts = [] ∨ 1 ≤ (kmeans_seed pts k0).k := by
    by_cases hne : pts = []
    · exact Or.inl hne
    · exact Or.inr (kmeans_clamped_k_pos pts k0 hne)
  obtain ⟨hc, hl, -⟩ := kmeans_loop_consistent KMEANS_MAX_ITERATIONS
    (kmeans_seed pts k0) pts 0 (by norm_num [KMEANS_MAX_ITERATIONS]) hk0 hlen
  exact ⟨hc, hl⟩

/-- Witness for C4 (amended) on the converged two-point run with `k = 1`. -/
theorem c4_kmeans_consistency_witness :
    kmeans_consistent (clustering_kmeans [⟨0, 0, 0⟩, ⟨1, 0, 0⟩] 1).1
        (clustering_kmeans [⟨0, 0, 0⟩, ⟨1, 0, 0⟩] 1).2 ∧
      (clustering_kmeans [⟨0, 0, 0⟩, ⟨1, 0, 0⟩] 1).2.length =
        ([⟨0, 0, 0⟩, ⟨1, 0, 0⟩] : List DataPoint).length :=
  c4_kmeans_consistency [⟨0, 0, 0⟩, ⟨1, 0, 0⟩] 1 (by decide) (by decide)
